import Mathlib

/-!
Verification of the file-management backend (NestJS `FilesService`, `MediaService`
and the `File` entity) against its natural-language specification.

The TypeScript source is shallowly embedded: the database is a `List File`,
the S3 object store is an oracle of per-item outcomes, and JavaScript string
operations used by the cursor codec (`Buffer.from(_, 'base64')`, `split('_')`,
`parseInt(_, 10)`, template interpolation of a number) are modelled as
executable Lean functions over `List Char` and `Nat`.
-/

/-- The `files` table row (`src/libs/database/src/entities/file.entity.ts`).
`userId` stands for the `user_id` foreign key; `description` and `status`
are nullable columns, the empty string modelling SQL NULL / JS undefined. -/
structure File where
  id : String
  userId : String
  fileUrls : List String
  thumbnailUrl : String
  fileName : String
  description : String
  status : String
  createdAt : Nat
  updatedAt : Nat
deriving DecidableEq, Repr

/-- NestJS exception classes thrown by the services. -/
inductive ServiceError where
  | badRequest (msg : String)
  | notFound (msg : String)
deriving DecidableEq, Repr

/-! ## Base64 (Node `Buffer.from(_, 'base64')` / `Buffer.toString('base64')`)

Node's base64 encoder emits the standard alphabet with `=` padding; its
decoder is lenient: it accepts both the standard and the url-safe alphabet
and silently skips any character outside it (including `=`). -/

/-- Character of the standard base64 alphabet at index `n < 64`. -/
def b64Char (n : Nat) : Char :=
  if n < 26 then Char.ofNat (65 + n)
  else if n < 52 then Char.ofNat (97 + (n - 26))
  else if n < 62 then Char.ofNat (48 + (n - 52))
  else if n = 62 then '+'
  else '/'

/-- Index of a character in the base64 alphabet; `none` for characters the
lenient Node decoder skips. Both `+`/`-` and `/`/`_` are accepted. -/
def b64Val (c : Char) : Option Nat :=
  if 65 ≤ c.toNat ∧ c.toNat ≤ 90 then some (c.toNat - 65)
  else if 97 ≤ c.toNat ∧ c.toNat ≤ 122 then some (26 + (c.toNat - 97))
  else if 48 ≤ c.toNat ∧ c.toNat ≤ 57 then some (52 + (c.toNat - 48))
  else if c = '+' ∨ c = '-' then some 62
  else if c = '/' ∨ c = '_' then some 63
  else none

/-- Base64-encode a byte list (3 bytes become 4 characters, `=`-padded). -/
def b64EncodeBytes : List Nat → List Char
  | a :: b :: c :: rest =>
      b64Char (a / 4) :: b64Char (a % 4 * 16 + b / 16) ::
        b64Char (b % 16 * 4 + c / 64) :: b64Char (c % 64) :: b64EncodeBytes rest
  | [a, b] => [b64Char (a / 4), b64Char (a % 4 * 16 + b / 16), b64Char (b % 16 * 4), '=']
  | [a] => [b64Char (a / 4), b64Char (a % 4 * 16), '=', '=']
  | [] => []

/-- Accumulate 6-bit groups into bytes: `acc` holds `nbits` pending bits. -/
def b64DecodeAux : List Nat → Nat → Nat → List Nat
  | [], _, _ => []
  | v :: rest, acc, nbits =>
    if nbits + 6 ≥ 8 then
      (acc * 64 + v) / 2 ^ (nbits - 2) % 256 ::
        b64DecodeAux rest ((acc * 64 + v) % 2 ^ (nbits - 2)) (nbits - 2)
    else b64DecodeAux rest (acc * 64 + v) (nbits + 6)

/-- Base64-decode a character list into bytes, skipping non-alphabet characters. -/
def b64DecodeBytes (cs : List Char) : List Nat :=
  b64DecodeAux (cs.filterMap b64Val) 0 0

/-- `Buffer.from(s).toString('base64')` for an ASCII string `s`. -/
def base64EncodeStr (s : String) : String :=
  String.mk (b64EncodeBytes (s.data.map Char.toNat))

/-- `Buffer.from(s, 'base64').toString('utf-8')`, modelled for decoded bytes
that are ASCII (the only case the cursor codec produces). -/
def base64DecodeStr (s : String) : String :=
  String.mk ((b64DecodeBytes s.data).map Char.ofNat)

theorem b64Val_b64Char : ∀ n < 64, b64Val (b64Char n) = some n := by decide

theorem b64Val_pad : b64Val '=' = none := by decide

theorem b64DecodeAux_step0 (v : Nat) (rest : List Nat) :
    b64DecodeAux (v :: rest) 0 0 = b64DecodeAux rest v 6 := by
  simp [b64DecodeAux]

theorem b64DecodeAux_step6 (v acc : Nat) (rest : List Nat) :
    b64DecodeAux (v :: rest) acc 6 =
      (acc * 64 + v) / 16 % 256 :: b64DecodeAux rest ((acc * 64 + v) % 16) 4 := by
  simp [b64DecodeAux]

theorem b64DecodeAux_step4 (v acc : Nat) (rest : List Nat) :
    b64DecodeAux (v :: rest) acc 4 =
      (acc * 64 + v) / 4 % 256 :: b64DecodeAux rest ((acc * 64 + v) % 4) 2 := by
  simp [b64DecodeAux]

theorem b64DecodeAux_step2 (v acc : Nat) (rest : List Nat) :
    b64DecodeAux (v :: rest) acc 2 =
      (acc * 64 + v) % 256 :: b64DecodeAux rest 0 0 := by
  simp [b64DecodeAux, Nat.mod_one]

theorem b64_roundtrip_bytes :
    ∀ l : List Nat, (∀ x ∈ l, x < 256) → b64DecodeBytes (b64EncodeBytes l) = l := by
  intro l
  induction l using b64EncodeBytes.induct with
  | case1 a b c rest ih =>
    intro h
    have ha : a < 256 := h a (by simp)
    have hb : b < 256 := h b (by simp)
    have hc : c < 256 := h c (by simp)
    have h1 : b64Val (b64Char (a / 4)) = some (a / 4) := b64Val_b64Char _ (by omega)
    have h2 : b64Val (b64Char (a % 4 * 16 + b / 16)) = some (a % 4 * 16 + b / 16) :=
      b64Val_b64Char _ (by omega)
    have h3 : b64Val (b64Char (b % 16 * 4 + c / 64)) = some (b % 16 * 4 + c / 64) :=
      b64Val_b64Char _ (by omega)
    have h4 : b64Val (b64Char (c % 64)) = some (c % 64) := b64Val_b64Char _ (by omega)
    have ih' := ih (fun x hx => h x (by simp [hx]))
    unfold b64DecodeBytes at ih' ⊢
    rw [b64EncodeBytes]
    simp only [List.filterMap_cons, h1, h2, h3, h4]
    rw [b64DecodeAux_step0, b64DecodeAux_step6, b64DecodeAux_step4, b64DecodeAux_step2, ih']
    refine List.cons_eq_cons.mpr ⟨by omega, List.cons_eq_cons.mpr ⟨by omega,
      List.cons_eq_cons.mpr ⟨by omega, rfl⟩⟩⟩
  | case2 a b =>
    intro h
    have ha : a < 256 := h a (by simp)
    have hb : b < 256 := h b (by simp)
    have h1 : b64Val (b64Char (a / 4)) = some (a / 4) := b64Val_b64Char _ (by omega)
    have h2 : b64Val (b64Char (a % 4 * 16 + b / 16)) = some (a % 4 * 16 + b / 16) :=
      b64Val_b64Char _ (by omega)
    have h3 : b64Val (b64Char (b % 16 * 4)) = some (b % 16 * 4) := b64Val_b64Char _ (by omega)
    unfold b64DecodeBytes
    rw [b64EncodeBytes]
    simp only [List.filterMap_cons, h1, h2, h3, b64Val_pad, List.filterMap_nil]
    rw [b64DecodeAux_step0, b64DecodeAux_step6, b64DecodeAux_step4]
    simp only [b64DecodeAux]
    refine List.cons_eq_cons.mpr ⟨by omega, List.cons_eq_cons.mpr ⟨by omega, rfl⟩⟩
  | case3 a =>
    intro h
    have ha : a < 256 := h a (by simp)
    have h1 : b64Val (b64Char (a / 4)) = some (a / 4) := b64Val_b64Char _ (by omega)
    have h2 : b64Val (b64Char (a % 4 * 16)) = some (a % 4 * 16) := b64Val_b64Char _ (by omega)
    unfold b64DecodeBytes
    rw [b64EncodeBytes]
    simp only [List.filterMap_cons, h1, h2, b64Val_pad, List.filterMap_nil]
    rw [b64DecodeAux_step0, b64DecodeAux_step6]
    simp only [b64DecodeAux]
    refine List.cons_eq_cons.mpr ⟨by omega, rfl⟩
  | case4 =>
    intro _
    rfl

set_option maxRecDepth 2000 in
theorem char_ofNat_toNat_small : ∀ n < 256, (Char.ofNat n).toNat = n := by decide

theorem base64_roundtrip (s : String) (h : ∀ c ∈ s.data, c.toNat < 256) :
    base64DecodeStr (base64EncodeStr s) = s := by
  unfold base64EncodeStr base64DecodeStr
  have hb : ∀ x ∈ s.data.map Char.toNat, x < 256 := by
    intro x hx
    rcases List.mem_map.mp hx with ⟨c, hc, rfl⟩
    exact h c hc
  show String.mk ((b64DecodeBytes (b64EncodeBytes (s.data.map Char.toNat))).map Char.ofNat) = s
  rw [b64_roundtrip_bytes _ hb, List.map_map]
  have hmap : s.data.map (Char.ofNat ∘ Char.toNat) = s.data.map id := by
    apply List.map_congr_left
    intro c _
    simp [Char.ofNat_toNat]
  rw [hmap, List.map_id]

/-! ## Decimal printing and `parseInt`

JS template interpolation of `lastFile.updatedAt` prints the timestamp in
decimal; `parseInt(s, 10)` skips leading whitespace, accepts an optional
sign and reads the longest digit prefix, giving NaN when there is none. -/

/-- Big-endian decimal digits of `n`, prepended to `acc`. -/
def natToDecimalAux (n : Nat) (acc : List Char) : List Char :=
  if _h : n < 10 then Char.ofNat (48 + n % 10) :: acc
  else natToDecimalAux (n / 10) (Char.ofNat (48 + n % 10) :: acc)
termination_by n
decreasing_by exact Nat.div_lt_self (by omega) (by omega)

/-- Decimal rendering of a JS number holding a non-negative integer. -/
def natToDecimal (n : Nat) : String :=
  String.mk (natToDecimalAux n [])

/-- Value of the longest digit prefix; `none` models NaN. -/
def parseDigits (cs : List Char) : Option Nat :=
  let ds := cs.takeWhile Char.isDigit
  if ds = [] then none
  else some (ds.foldl (fun acc c => acc * 10 + (c.toNat - 48)) 0)

/-- The whitespace characters `parseInt` skips (ASCII subset). -/
def jsIsSpace (c : Char) : Bool :=
  c == ' ' || c == '\t' || c == '\n' || c == '\r'

/-- JS `parseInt(s, 10)`: `none` models NaN. -/
def jsParseInt (s : String) : Option Int :=
  match s.data.dropWhile jsIsSpace with
  | [] => none
  | c :: rest =>
    if c = '-' then (parseDigits rest).map (fun n => -(n : Int))
    else if c = '+' then (parseDigits rest).map (fun n => (n : Int))
    else (parseDigits (c :: rest)).map (fun n => (n : Int))

theorem natToDecimalAux_ne_nil (n : Nat) (acc : List Char) : natToDecimalAux n acc ≠ [] := by
  unfold natToDecimalAux
  split
  · simp
  · exact natToDecimalAux_ne_nil (n / 10) _
termination_by n
decreasing_by exact Nat.div_lt_self (by omega) (by omega)

theorem char_digit_props : ∀ r < 10,
    (Char.ofNat (48 + r)).isDigit = true ∧ (Char.ofNat (48 + r)).toNat = 48 + r ∧
      Char.ofNat (48 + r) ≠ '_' ∧ jsIsSpace (Char.ofNat (48 + r)) = false ∧
      Char.ofNat (48 + r) ≠ '-' ∧ Char.ofNat (48 + r) ≠ '+' := by decide

theorem natToDecimalAux_mem (n : Nat) (acc : List Char)
    (hacc : ∀ c ∈ acc, ∃ r < 10, c = Char.ofNat (48 + r)) :
    ∀ c ∈ natToDecimalAux n acc, ∃ r < 10, c = Char.ofNat (48 + r) := by
  unfold natToDecimalAux
  split
  · intro c hc
    rcases List.mem_cons.mp hc with rfl | hc
    · exact ⟨n % 10, by omega, rfl⟩
    · exact hacc c hc
  · refine natToDecimalAux_mem (n / 10) _ ?_
    intro c hc
    rcases List.mem_cons.mp hc with rfl | hc
    · exact ⟨n % 10, by omega, rfl⟩
    · exact hacc c hc
termination_by n
decreasing_by exact Nat.div_lt_self (by omega) (by omega)

theorem foldl_natToDecimalAux (n : Nat) (acc : List Char) :
    (natToDecimalAux n acc).foldl (fun a c => a * 10 + (c.toNat - 48)) 0 =
      acc.foldl (fun a c => a * 10 + (c.toNat - 48)) n := by
  unfold natToDecimalAux
  have hd := (char_digit_props (n % 10) (by omega)).2.1
  split
  · rename_i h
    simp only [List.foldl_cons, hd]
    have he : 0 * 10 + (48 + n % 10 - 48) = n := by omega
    rw [he]
  · rw [foldl_natToDecimalAux (n / 10) (Char.ofNat (48 + n % 10) :: acc)]
    simp only [List.foldl_cons, hd]
    have he : n / 10 * 10 + (48 + n % 10 - 48) = n := by omega
    rw [he]
termination_by n
decreasing_by exact Nat.div_lt_self (by omega) (by omega)

theorem takeWhile_of_all {p : Char → Bool} :
    ∀ l : List Char, (∀ c ∈ l, p c = true) → l.takeWhile p = l := by
  intro l h
  induction l with
  | nil => rfl
  | cons c rest ih =>
    rw [List.takeWhile_cons, h c (by simp)]
    simp only [ite_true]
    rw [ih (fun x hx => h x (by simp [hx]))]

theorem jsParseInt_natToDecimal (n : Nat) : jsParseInt (natToDecimal n) = some (n : Int) := by
  have hmem := natToDecimalAux_mem n [] (by simp)
  have hne := natToDecimalAux_ne_nil n []
  have hdig : ∀ c ∈ natToDecimalAux n [], c.isDigit = true := by
    intro c hc
    rcases hmem c hc with ⟨r, hr, rfl⟩
    exact (char_digit_props r hr).1
  unfold jsParseInt natToDecimal
  cases hds : natToDecimalAux n [] with
  | nil => exact absurd hds hne
  | cons c rest =>
    rcases hmem c (by rw [hds]; simp) with ⟨r, hr, hcr⟩
    have hprops := char_digit_props r hr
    show (match (c :: rest).dropWhile jsIsSpace with
      | [] => none
      | c :: rest =>
        if c = '-' then (parseDigits rest).map (fun n => -(n : Int))
        else if c = '+' then (parseDigits rest).map (fun n => (n : Int))
        else (parseDigits (c :: rest)).map (fun n => (n : Int))) = some (n : Int)
    rw [List.dropWhile_cons]
    have hsp : jsIsSpace c = false := by rw [hcr]; exact hprops.2.2.2.1
    rw [hsp]
    simp only [Bool.false_eq_true, if_false]
    have hminus : ¬ c = '-' := by rw [hcr]; exact hprops.2.2.2.2.1
    have hplus : ¬ c = '+' := by rw [hcr]; exact hprops.2.2.2.2.2
    rw [if_neg hminus, if_neg hplus]
    unfold parseDigits
    rw [show (c :: rest) = natToDecimalAux n [] from hds.symm]
    rw [takeWhile_of_all _ hdig]
    rw [if_neg hne]
    rw [foldl_natToDecimalAux n []]
    rfl

/-! ## JS `decoded.split('_')` on a character list -/

def splitOnUnderscore : List Char → List (List Char)
  | [] => [[]]
  | c :: rest =>
    if c = '_' then [] :: splitOnUnderscore rest
    else
      match splitOnUnderscore rest with
      | h :: t => (c :: h) :: t
      | [] => [[c]]

theorem splitOnUnderscore_append (a b : List Char) (ha : ∀ c ∈ a, c ≠ '_') :
    splitOnUnderscore (a ++ '_' :: b) = a :: splitOnUnderscore b := by
  induction a with
  | nil =>
    show splitOnUnderscore ('_' :: b) = [] :: splitOnUnderscore b
    rw [splitOnUnderscore]
    simp
  | cons c a' ih =>
    have hc : ¬ c = '_' := ha c (by simp)
    show splitOnUnderscore (c :: (a' ++ '_' :: b)) = (c :: a') :: splitOnUnderscore b
    rw [splitOnUnderscore, if_neg hc, ih (fun x hx => ha x (by simp [hx]))]

/-! ## The cursor codec of `FilesService.getUserFiles`
(`src/unnamed/part_004`, lines 176-212) -/

/-- Destructuring `const [updatedAt, id] = decoded.split('_')` followed by
the `if (updatedAt && id)` truthiness guard. -/
def cursorParts : List (List Char) → Option (String × String)
  | u :: i :: _ =>
    if u ≠ [] ∧ i ≠ [] then some (String.mk u, String.mk i) else none
  | _ => none

/-- The decode step: base64-decode the cursor, `split('_')`, destructure the
first two components and keep them only when both are truthy (non-empty).
Mirrors lines 179-181 and the `if (updatedAt && id)` guard. -/
def decodeCursorRaw (cursor : String) : Option (String × String) :=
  cursorParts (splitOnUnderscore (base64DecodeStr cursor).data)

/-- The SQL predicate `updated_at < :updatedAt OR (updated_at = :updatedAt AND id < :id)`
with `:updatedAt := parseInt(updatedAt, 10)`. A NaN bound (`none`) is modelled as a
predicate no row satisfies; the real code hands NaN to the database driver,
whose reaction is outside this repository. -/
def cursorPred (u : Option Int) (i : String) (f : File) : Bool :=
  match u with
  | some n => decide ((f.updatedAt : Int) < n) || (decide ((f.updatedAt : Int) = n) && decide (f.id < i))
  | none => false

/-- Numeric-parse step of full cursor decoding. -/
def decodeCursorNum : Option (String × String) → Option (Int × String)
  | some (uS, iS) =>
    match jsParseInt uS with
    | some n => some (n, iS)
    | none => none
  | none => none

/-- Full cursor decoding: raw decode plus a successful numeric parse of the
timestamp component. -/
def decodeCursor (cursor : String) : Option (Int × String) :=
  decodeCursorNum (decodeCursorRaw cursor)

/-- `ORDER BY updated_at DESC, id DESC`: `a` may precede `b`. -/
def pageOrder (a b : File) : Prop :=
  b.updatedAt < a.updatedAt ∨ (b.updatedAt = a.updatedAt ∧ b.id ≤ a.id)

instance : DecidableRel pageOrder := fun a b => by
  unfold pageOrder
  infer_instance

instance : IsTotal File pageOrder where
  total a b := by
    unfold pageOrder
    rcases Nat.lt_trichotomy a.updatedAt b.updatedAt with h | h | h
    · exact Or.inr (Or.inl h)
    · rcases le_total a.id b.id with hi | hi
      · exact Or.inr (Or.inr ⟨h, hi⟩)
      · exact Or.inl (Or.inr ⟨h.symm, hi⟩)
    · exact Or.inl (Or.inl h)

instance : IsTrans File pageOrder where
  trans a b c hab hbc := by
    unfold pageOrder at *
    rcases hab with h1 | ⟨h1, h1'⟩ <;> rcases hbc with h2 | ⟨h2, h2'⟩
    · exact Or.inl (by omega)
    · exact Or.inl (by omega)
    · exact Or.inl (by omega)
    · exact Or.inr ⟨by omega, le_trans h2' h1'⟩

/-- `getFilesDto.limit || 20` (JS: `0` and `undefined` are falsy). -/
def effectiveLimit (limitOpt : Option Nat) : Nat :=
  match limitOpt with
  | some l => if l = 0 then 20 else l
  | none => 20

/-- The optional `andWhere` of lines 177-193: applied only when a cursor is
present and its decoded form has two truthy components. -/
def cursorFilter : Option String → List File → List File
  | some c, base =>
    match decodeCursorRaw c with
    | some (uS, iS) => base.filter (cursorPred (jsParseInt uS) iS)
    | none => base
  | none, base => base

/-- The row set fetched by the query builder: owner filter, `status = 'active'`,
optional keyset predicate, composite descending order, `LIMIT limit + 1`. -/
def queryFiles (db : List File) (userId : String) (cursor : Option String) (limit : Nat) :
    List File :=
  (List.insertionSort pageOrder
    (cursorFilter cursor (db.filter (fun f => f.userId == userId && f.status == "active")))).take
    (limit + 1)

/-- `${lastFile.updatedAt}_${lastFile.id}`, base64-encoded (lines 205-206). -/
def encodeCursor (f : File) : String :=
  base64EncodeStr (natToDecimal f.updatedAt ++ "_" ++ f.id)

/-- `resultFiles = hasMore ? files.slice(0, limit) : files` (lines 198-199). -/
def pageOf (files : List File) (limit : Nat) : List File :=
  if files.length > limit then files.take limit else files

/-- Lines 202-207: `nextCursor` from the last row of the trimmed page when
`hasMore && resultFiles.length > 0`. -/
def nextCursorOf (files : List File) (limit : Nat) : Option String :=
  if files.length > limit ∧ (pageOf files limit).length > 0 then
    match (pageOf files limit).getLast? with
    | some lastFile => some (encodeCursor lastFile)
    | none => none
  else none

/-- `FilesService.getUserFiles`: returns the trimmed page and the next cursor. -/
def getUserFiles (db : List File) (userId : String) (cursor : Option String)
    (limitOpt : Option Nat) : List File × Option String :=
  let limit := effectiveLimit limitOpt
  let files := queryFiles db userId cursor limit
  (pageOf files limit, nextCursorOf files limit)

theorem queryFiles_cursor_filter {cursor : String} {uS iS : String}
    (hraw : decodeCursorRaw cursor = some (uS, iS)) (db : List File) (userId : String)
    (limit : Nat) :
    queryFiles db userId (some cursor) limit =
      (List.insertionSort pageOrder
        ((db.filter (fun f => f.userId == userId && f.status == "active")).filter
          (cursorPred (jsParseInt uS) iS))).take (limit + 1) := by
  unfold queryFiles
  simp only [cursorFilter]
  rw [hraw]

theorem sorted_queryFiles (db : List File) (userId : String) (cursor : Option String)
    (limit : Nat) : List.Sorted pageOrder (queryFiles db userId cursor limit) := by
  unfold queryFiles
  exact List.Pairwise.sublist (List.take_sublist _ _) (List.sorted_insertionSort pageOrder _)

theorem pageOf_sublist (files : List File) (limit : Nat) : List.Sublist (pageOf files limit) files := by
  unfold pageOf
  split
  · exact List.take_sublist _ _
  · exact List.Sublist.refl _

theorem getUserFiles_fst_sub (db : List File) (userId : String) (cursor : Option String)
    (limitOpt : Option Nat) :
    ∀ f ∈ (getUserFiles db userId cursor limitOpt).1,
      f ∈ queryFiles db userId cursor (effectiveLimit limitOpt) := by
  intro f hf
  unfold getUserFiles at hf
  simp only at hf
  exact (pageOf_sublist _ _).subset hf

theorem getUserFiles_fst_sorted (db : List File) (userId : String) (cursor : Option String)
    (limitOpt : Option Nat) : List.Sorted pageOrder (getUserFiles db userId cursor limitOpt).1 := by
  unfold getUserFiles
  simp only
  exact List.Pairwise.sublist (pageOf_sublist _ _) (sorted_queryFiles _ _ _ _)

theorem pageOf_length_le (files : List File) (limit : Nat) :
    (pageOf files limit).length ≤ limit := by
  unfold pageOf
  split
  · rw [List.length_take]
    omega
  · omega

theorem getUserFiles_fst_length (db : List File) (userId : String) (cursor : Option String)
    (limitOpt : Option Nat) :
    (getUserFiles db userId cursor limitOpt).1.length ≤ effectiveLimit limitOpt := by
  unfold getUserFiles
  simp only
  exact pageOf_length_le _ _

/-- C1: for a cursor that decodes to `(u, i)`, `getUserFiles` returns only
records of the requested owner with status `active` that satisfy
`updatedAt < u OR (updatedAt = u AND id < i)`, sorted by `updatedAt`
descending with `id` descending as tie-break, and the page holds at most
`limit` records. -/
theorem c1_getUserFiles_page_shape (db : List File) (userId cursor : String)
    (u : Int) (i : String) (limitOpt : Option Nat)
    (h : decodeCursor cursor = some (u, i)) :
    (∀ f ∈ (getUserFiles db userId (some cursor) limitOpt).1,
        f.userId = userId ∧ f.status = "active" ∧
          ((f.updatedAt : Int) < u ∨ ((f.updatedAt : Int) = u ∧ f.id < i))) ∧
    List.Sorted pageOrder (getUserFiles db userId (some cursor) limitOpt).1 ∧
    (getUserFiles db userId (some cursor) limitOpt).1.length ≤ effectiveLimit limitOpt := by
  refine ⟨?_, getUserFiles_fst_sorted _ _ _ _, getUserFiles_fst_length _ _ _ _⟩
  cases hraw : decodeCursorRaw cursor with
  | none =>
    unfold decodeCursor at h
    rw [hraw] at h
    simp only [decodeCursorNum] at h
    cases h
  | some p =>
    obtain ⟨uS, iS⟩ := p
    unfold decodeCursor at h
    rw [hraw] at h
    simp only [decodeCursorNum] at h
    cases hparse : jsParseInt uS with
    | none =>
      rw [hparse] at h
      cases h
    | some n =>
      rw [hparse] at h
      simp only [Option.some.injEq, Prod.mk.injEq] at h
      obtain ⟨rfl, rfl⟩ := h
      intro f hf
      have hq := getUserFiles_fst_sub db userId (some cursor) limitOpt f hf
      rw [queryFiles_cursor_filter hraw] at hq
      have hq2 := List.take_subset _ _ hq
      rw [List.mem_insertionSort] at hq2
      have hq3 := List.mem_filter.mp hq2
      have hq4 := List.mem_filter.mp hq3.1
      have howner : f.userId = userId ∧ f.status = "active" := by
        have := hq4.2
        simp only [Bool.and_eq_true, beq_iff_eq] at this
        exact this
      have hpred := hq3.2
      rw [hparse] at hpred
      simp only [cursorPred, Bool.or_eq_true, Bool.and_eq_true, decide_eq_true_eq] at hpred
      exact ⟨howner.1, howner.2, hpred⟩

theorem c1_witness :
    decodeCursor (base64EncodeStr "5_z") = some (5, "z") ∧
    ((∀ f ∈ (getUserFiles
          [⟨"a", "u", ["r/x.png"], "r/x.png", "x.png", "", "active", 1, 3⟩]
          "u" (some (base64EncodeStr "5_z")) none).1,
        f.userId = "u" ∧ f.status = "active" ∧
          ((f.updatedAt : Int) < 5 ∨ ((f.updatedAt : Int) = 5 ∧ f.id < "z"))) ∧
      List.Sorted pageOrder (getUserFiles
          [⟨"a", "u", ["r/x.png"], "r/x.png", "x.png", "", "active", 1, 3⟩]
          "u" (some (base64EncodeStr "5_z")) none).1 ∧
      (getUserFiles [⟨"a", "u", ["r/x.png"], "r/x.png", "x.png", "", "active", 1, 3⟩]
          "u" (some (base64EncodeStr "5_z")) none).1.length ≤ effectiveLimit none) :=
  ⟨by decide, c1_getUserFiles_page_shape _ "u" _ 5 "z" none (by decide)⟩

/-- C2 counterexample: the cursor `base64("50x_z")` is unparseable as a
`(timestamp, id)` pair, yet `getUserFiles` does not treat it as "no cursor":
`parseInt("50x", 10) = 50`, so the keyset filter is applied and the record
with `updatedAt = 100` is excluded from the page, unlike the no-cursor call. -/
theorem c2_counterexample :
    getUserFiles [⟨"a", "u", ["r/x.png"], "r/x.png", "x.png", "", "active", 1, 100⟩]
        "u" (some (base64EncodeStr "50x_z")) none ≠
      getUserFiles [⟨"a", "u", ["r/x.png"], "r/x.png", "x.png", "", "active", 1, 100⟩]
        "u" none none := by decide

/-- C2 (amended): a cursor whose base64-decoded form does not split on `_`
into two leading non-empty components is ignored: the call returns exactly
the result of a call with no cursor, and never fails the request. (The
counterexample shows a malformed cursor OUTSIDE this class — decoding to
`50x_z` — for which the page differs from the no-cursor page.) -/
theorem c2_amended_malformed_cursor_first_page (db : List File) (userId cursor : String)
    (limitOpt : Option Nat) (h : decodeCursorRaw cursor = none) :
    getUserFiles db userId (some cursor) limitOpt = getUserFiles db userId none limitOpt := by
  unfold getUserFiles queryFiles
  simp only [cursorFilter]
  rw [h]

theorem c2_witness :
    decodeCursorRaw (base64EncodeStr "nocursor") = none ∧
    getUserFiles [⟨"a", "u", ["r/x.png"], "r/x.png", "x.png", "", "active", 1, 100⟩]
        "u" (some (base64EncodeStr "nocursor")) none =
      getUserFiles [⟨"a", "u", ["r/x.png"], "r/x.png", "x.png", "", "active", 1, 100⟩]
        "u" none none :=
  ⟨by decide, c2_amended_malformed_cursor_first_page _ "u" _ none (by decide)⟩

theorem splitOnUnderscore_no_underscore :
    ∀ cs : List Char, (∀ c ∈ cs, c ≠ '_') → splitOnUnderscore cs = [cs] := by
  intro cs h
  induction cs with
  | nil => rfl
  | cons c rest ih =>
    rw [splitOnUnderscore, if_neg (h c (by simp)), ih (fun x hx => h x (by simp [hx]))]

theorem queryFiles_subset_db (db : List File) (userId : String) (cursor : Option String)
    (limit : Nat) : ∀ f ∈ queryFiles db userId cursor limit, f ∈ db := by
  intro f hf
  unfold queryFiles at hf
  have h1 := List.take_subset _ _ hf
  rw [List.mem_insertionSort] at h1
  have h2 : f ∈ db.filter (fun f => f.userId == userId && f.status == "active") := by
    cases cursor with
    | none => simpa [cursorFilter] using h1
    | some c =>
      simp only [cursorFilter] at h1
      cases hraw : decodeCursorRaw c with
      | none =>
        rw [hraw] at h1
        exact h1
      | some p =>
        obtain ⟨uS, iS⟩ := p
        rw [hraw] at h1
        exact (List.mem_filter.mp h1).1
  exact (List.mem_filter.mp h2).1

theorem mem_of_getLast?_eq : ∀ {l : List File} {a : File}, l.getLast? = some a → a ∈ l := by
  intro l
  induction l with
  | nil =>
    intro a h
    cases h
  | cons x xs ih =>
    intro a h
    cases xs with
    | nil =>
      simp only [List.getLast?_singleton, Option.some.injEq] at h
      simp [h]
    | cons y ys =>
      rw [List.getLast?_cons_cons] at h
      exact List.mem_cons.mpr (Or.inr (ih h))

theorem getLast?_isSome_of_ne_nil : ∀ {l : List File}, l ≠ [] → ∃ a, l.getLast? = some a := by
  intro l
  induction l with
  | nil =>
    intro h
    exact absurd rfl h
  | cons x xs ih =>
    intro _
    cases xs with
    | nil => exact ⟨x, List.getLast?_singleton x⟩
    | cons y ys =>
      obtain ⟨a, ha⟩ := ih (by simp)
      exact ⟨a, by rw [List.getLast?_cons_cons]; exact ha⟩

theorem effectiveLimit_pos (limitOpt : Option Nat) : 1 ≤ effectiveLimit limitOpt := by
  cases limitOpt with
  | none => simp [effectiveLimit]
  | some l =>
    simp only [effectiveLimit]
    split
    · omega
    · rename_i h
      omega

theorem queryFiles_length_le (db : List File) (userId : String) (cursor : Option String)
    (limit : Nat) : (queryFiles db userId cursor limit).length ≤ limit + 1 := by
  unfold queryFiles
  rw [List.length_take]
  omega

theorem decodeCursor_encodeCursor (f : File) (hne : f.id ≠ "")
    (hu : ∀ c ∈ f.id.data, c ≠ '_') (hascii : ∀ c ∈ f.id.data, c.toNat < 256) :
    decodeCursor (encodeCursor f) = some ((f.updatedAt : Int), f.id) := by
  have hdigmem := natToDecimalAux_mem f.updatedAt [] (by simp)
  have hdata : (natToDecimal f.updatedAt ++ "_" ++ f.id).data
      = natToDecimalAux f.updatedAt [] ++ '_' :: f.id.data := by
    rw [String.data_append, String.data_append]
    show natToDecimalAux f.updatedAt [] ++ ['_'] ++ f.id.data = _
    rw [List.append_assoc]
    rfl
  have hasciiall : ∀ c ∈ (natToDecimal f.updatedAt ++ "_" ++ f.id).data, c.toNat < 256 := by
    rw [hdata]
    intro c hc
    rcases List.mem_append.mp hc with hc | hc
    · rcases hdigmem c hc with ⟨r, hr, rfl⟩
      rw [(char_digit_props r hr).2.1]
      omega
    · rcases List.mem_cons.mp hc with rfl | hc
      · decide
      · exact hascii c hc
  have hdigne := natToDecimalAux_ne_nil f.updatedAt []
  have hidne : f.id.data ≠ [] := by
    intro hd
    apply hne
    show String.mk f.id.data = ""
    rw [hd]
  have hdigu : ∀ c ∈ natToDecimalAux f.updatedAt [], c ≠ '_' := by
    intro c hc
    rcases hdigmem c hc with ⟨r, hr, rfl⟩
    exact (char_digit_props r hr).2.2.1
  unfold encodeCursor decodeCursor decodeCursorRaw
  rw [base64_roundtrip _ hasciiall, hdata]
  rw [splitOnUnderscore_append _ _ hdigu, splitOnUnderscore_no_underscore _ hu]
  simp only [cursorParts]
  rw [if_pos ⟨hdigne, hidne⟩]
  simp only [decodeCursorNum]
  rw [show String.mk (natToDecimalAux f.updatedAt []) = natToDecimal f.updatedAt from rfl]
  rw [jsParseInt_natToDecimal]

/-- The C2 counterexample cursor is genuinely malformed: `base64("50x_z")`
is not `encodeCursor` of any record. Encoder output decodes to
`decimal(updatedAt) ++ "_" ++ id`, so the segment before the first
underscore is the all-digit decimal rendering of the timestamp — but the
segment before the first underscore of `"50x_z"` contains `'x'`, which is
not a digit. Stated for records whose id is ASCII (true of the table's
generated UUIDs), where the base64 layer round-trips. -/
theorem malformed_cursor_not_encodable (f : File)
    (hascii : ∀ c ∈ f.id.data, c.toNat < 128) :
    encodeCursor f ≠ base64EncodeStr "50x_z" := by
  intro heq
  have hdigmem := natToDecimalAux_mem f.updatedAt [] (by simp)
  have hdata : (natToDecimal f.updatedAt ++ "_" ++ f.id).data
      = natToDecimalAux f.updatedAt [] ++ '_' :: f.id.data := by
    rw [String.data_append, String.data_append]
    show natToDecimalAux f.updatedAt [] ++ ['_'] ++ f.id.data = _
    rw [List.append_assoc]
    rfl
  have hasciiall : ∀ c ∈ (natToDecimal f.updatedAt ++ "_" ++ f.id).data, c.toNat < 256 := by
    rw [hdata]
    intro c hc
    rcases List.mem_append.mp hc with hc | hc
    · rcases hdigmem c hc with ⟨r, hr, rfl⟩
      rw [(char_digit_props r hr).2.1]
      omega
    · rcases List.mem_cons.mp hc with rfl | hc
      · decide
      · have := hascii c hc
        omega
  have hdigu : ∀ c ∈ natToDecimalAux f.updatedAt [], c ≠ '_' := by
    intro c hc
    rcases hdigmem c hc with ⟨r, hr, rfl⟩
    exact (char_digit_props r hr).2.2.1
  have hdec : base64DecodeStr (encodeCursor f) = natToDecimal f.updatedAt ++ "_" ++ f.id := by
    unfold encodeCursor
    exact base64_roundtrip _ hasciiall
  have hdec' : base64DecodeStr (base64EncodeStr "50x_z") = "50x_z" := by decide
  have hstr : natToDecimal f.updatedAt ++ "_" ++ f.id = ("50x_z" : String) := by
    rw [← hdec, heq, hdec']
  have hchars : natToDecimalAux f.updatedAt [] ++ '_' :: f.id.data =
      ['5', '0', 'x', '_', 'z'] := by
    rw [← hdata, hstr]
  have hsplit : splitOnUnderscore (natToDecimalAux f.updatedAt [] ++ '_' :: f.id.data) =
      natToDecimalAux f.updatedAt [] :: splitOnUnderscore f.id.data :=
    splitOnUnderscore_append _ _ hdigu
  rw [hchars] at hsplit
  have hlit : splitOnUnderscore ['5', '0', 'x', '_', 'z'] = [['5', '0', 'x'], ['z']] := by
    decide
  rw [hlit] at hsplit
  have hdigits : natToDecimalAux f.updatedAt [] = ['5', '0', 'x'] :=
    (List.cons_eq_cons.mp hsplit.symm).1
  have hx : ('x' : Char) ∈ natToDecimalAux f.updatedAt [] := by
    rw [hdigits]
    simp
  rcases hdigmem 'x' hx with ⟨r, hr, hxr⟩
  have : ('x' : Char).toNat = 48 + r := by
    rw [hxr, (char_digit_props r hr).2.1]
  have hx120 : ('x' : Char).toNat = 120 := by decide
  omega

theorem getUserFiles_fst_eq (db : List File) (userId : String) (cursor : Option String)
    (limitOpt : Option Nat) :
    (getUserFiles db userId cursor limitOpt).1 =
      pageOf (queryFiles db userId cursor (effectiveLimit limitOpt)) (effectiveLimit limitOpt) :=
  rfl

theorem getUserFiles_snd_eq (db : List File) (userId : String) (cursor : Option String)
    (limitOpt : Option Nat) :
    (getUserFiles db userId cursor limitOpt).2 =
      nextCursorOf (queryFiles db userId cursor (effectiveLimit limitOpt))
        (effectiveLimit limitOpt) :=
  rfl

theorem nextCursorOf_some {files : List File} {limit : Nat} {nc : String}
    (h : nextCursorOf files limit = some nc) :
    files.length > limit ∧
      ∃ last, (pageOf files limit).getLast? = some last ∧ nc = encodeCursor last := by
  unfold nextCursorOf at h
  split at h
  · rename_i hcond
    cases hl : (pageOf files limit).getLast? with
    | none =>
      rw [hl] at h
      cases h
    | some last =>
      rw [hl] at h
      exact ⟨hcond.1, last, rfl, (Option.some.inj h).symm⟩
  · cases h

theorem nextCursorOf_isSome {files : List File} {limit : Nat} (hpos : 1 ≤ limit)
    (hlen : files.length = limit + 1) : (nextCursorOf files limit).isSome = true := by
  unfold nextCursorOf
  have hgt : files.length > limit := by omega
  have hpage : (pageOf files limit).length > 0 := by
    unfold pageOf
    rw [if_pos hgt, List.length_take]
    omega
  rw [if_pos ⟨hgt, hpage⟩]
  obtain ⟨a, ha⟩ := getLast?_isSome_of_ne_nil (l := pageOf files limit)
    (by
      intro hnil
      rw [hnil] at hpage
      simp at hpage)
  rw [ha]
  rfl

/-- C8: a non-null `nextCursor` is emitted exactly when the query fetched
`limit + 1` rows, and decoding that cursor yields the `(updatedAt, id)` pair
of the last record of the trimmed page. Record ids are assumed non-empty,
underscore-free ASCII (true of the UUIDs the table generates). -/
theorem c8_nextCursor_roundtrip (db : List File) (userId : String) (cursor : Option String)
    (limitOpt : Option Nat)
    (hids : ∀ f ∈ db, f.id ≠ "" ∧ (∀ c ∈ f.id.data, c ≠ '_') ∧ (∀ c ∈ f.id.data, c.toNat < 128)) :
    ((getUserFiles db userId cursor limitOpt).2.isSome = true ↔
      (queryFiles db userId cursor (effectiveLimit limitOpt)).length =
        effectiveLimit limitOpt + 1) ∧
    (∀ nc, (getUserFiles db userId cursor limitOpt).2 = some nc →
      ∃ last, (getUserFiles db userId cursor limitOpt).1.getLast? = some last ∧
        decodeCursor nc = some ((last.updatedAt : Int), last.id)) := by
  constructor
  · constructor
    · intro hs
      rw [getUserFiles_snd_eq] at hs
      have hle := queryFiles_length_le db userId cursor (effectiveLimit limitOpt)
      rcases Option.isSome_iff_exists.mp hs with ⟨nc, hnc⟩
      have := (nextCursorOf_some hnc).1
      omega
    · intro hlen
      rw [getUserFiles_snd_eq]
      exact nextCursorOf_isSome (effectiveLimit_pos limitOpt) hlen
  · intro nc hnc
    rw [getUserFiles_snd_eq] at hnc
    obtain ⟨hgt, last, hlast, rfl⟩ := nextCursorOf_some hnc
    refine ⟨last, by rw [getUserFiles_fst_eq]; exact hlast, ?_⟩
    have hmem : last ∈ db := by
      have h1 := mem_of_getLast?_eq hlast
      have h2 := (pageOf_sublist _ _).subset h1
      exact queryFiles_subset_db _ _ _ _ _ h2
    obtain ⟨hne, hu, hascii⟩ := hids last hmem
    exact decodeCursor_encodeCursor last hne hu
      (fun c hc => by
        have := hascii c hc
        omega)

theorem c8_witness :
    (∀ f ∈ [(⟨"b", "u", ["r/b.png"], "r/b.png", "b.png", "", "active", 1, 7⟩ : File),
            ⟨"a", "u", ["r/a.png"], "r/a.png", "a.png", "", "active", 1, 3⟩],
      f.id ≠ "" ∧ (∀ c ∈ f.id.data, c ≠ '_') ∧ (∀ c ∈ f.id.data, c.toNat < 128)) ∧
    (((getUserFiles [⟨"b", "u", ["r/b.png"], "r/b.png", "b.png", "", "active", 1, 7⟩,
          ⟨"a", "u", ["r/a.png"], "r/a.png", "a.png", "", "active", 1, 3⟩]
          "u" none (some 1)).2.isSome = true ↔
        (queryFiles [⟨"b", "u", ["r/b.png"], "r/b.png", "b.png", "", "active", 1, 7⟩,
          ⟨"a", "u", ["r/a.png"], "r/a.png", "a.png", "", "active", 1, 3⟩]
          "u" none (effectiveLimit (some 1))).length = effectiveLimit (some 1) + 1) ∧
      (∀ nc, (getUserFiles [⟨"b", "u", ["r/b.png"], "r/b.png", "b.png", "", "active", 1, 7⟩,
          ⟨"a", "u", ["r/a.png"], "r/a.png", "a.png", "", "active", 1, 3⟩]
          "u" none (some 1)).2 = some nc →
        ∃ last, (getUserFiles [⟨"b", "u", ["r/b.png"], "r/b.png", "b.png", "", "active", 1, 7⟩,
            ⟨"a", "u", ["r/a.png"], "r/a.png", "a.png", "", "active", 1, 3⟩]
            "u" none (some 1)).1.getLast? = some last ∧
          decodeCursor nc = some ((last.updatedAt : Int), last.id))) :=
  ⟨by decide, c8_nextCursor_roundtrip _ "u" none (some 1) (by decide)⟩

/-! ## `FilesService.uploadFiles` (`src/unnamed/part_004`, lines 80-157)

The S3 outcome of each item's `PutObjectCommand` is an oracle `ok : Nat → Bool`
indexed by the item's position, and the stored public URL of item `i`
(`region/userId-timestamp-random-i.ext`) is an oracle `mkUrl : Nat → String`
(timestamp and random suffix are drawn per item at run time). The created
entity is modelled up to the repository-assigned id and timestamps. -/

/-- One element of the `files` argument (`Express.Multer.File`). -/
structure UploadItem where
  originalname : String
  mimetype : String
deriving DecidableEq, Repr

/-- The value resolved by one item's upload closure (lines 122-126). -/
structure UploadResult where
  url : String
  originalName : String
  index : Nat
deriving DecidableEq, Repr

/-- The argument of `fileRepository.create` (lines 143-149). -/
structure FileDraft where
  userId : String
  fileUrls : List String
  fileName : String
  thumbnailUrl : String
  status : String
deriving DecidableEq, Repr

/-- The MIME-type allow-list of `FilesService` (images only). -/
def allowedMimeTypes : List String :=
  ["image/jpeg", "image/jpg", "image/png", "image/gif", "image/webp",
   "image/bmp", "image/svg+xml"]

/-- `files.map((file, index) => ...)` after `Promise.allSettled`: item `i`
resolves to its upload result, or to `null` when the put failed (the inner
catch turns any S3 error into `null`, so no promise rejects). -/
def uploadAttempts (ok : Nat → Bool) (mkUrl : Nat → String) :
    List UploadItem → Nat → List (Option UploadResult)
  | [], _ => []
  | f :: rest, i =>
    (if ok i then some ⟨mkUrl i, f.originalname, i⟩ else none) ::
      uploadAttempts ok mkUrl rest (i + 1)

/-- Relation used by `.sort((a, b) => a.index - b.index)`. -/
def uploadOrder (a b : UploadResult) : Prop :=
  a.index ≤ b.index

instance : DecidableRel uploadOrder := fun a b => by
  unfold uploadOrder
  infer_instance

instance : IsTotal UploadResult uploadOrder where
  total a b := by
    unfold uploadOrder
    omega

instance : IsTrans UploadResult uploadOrder where
  trans a b c hab hbc := by
    unfold uploadOrder at *
    omega

/-- `FilesService.uploadFiles`. The second component is the list of item
indices for which a `PutObjectCommand` was issued (every index once the
pre-flight validation passed, none otherwise). -/
def uploadFiles (userId : String) (userExists : Bool) (files : List UploadItem)
    (ok : Nat → Bool) (mkUrl : Nat → String) :
    Except ServiceError FileDraft × List Nat :=
  if files.length = 0 then
    (.error (.badRequest "No files provided"), [])
  else
    match files.find? (fun f => !(allowedMimeTypes.contains f.mimetype)) with
    | some f =>
      (.error (.badRequest ("Invalid file type: " ++ f.originalname ++
        ". Only image files are allowed (JPEG, PNG, GIF, WebP, BMP, SVG).")), [])
    | none =>
      if !userExists then
        (.error (.notFound "User not found"), [])
      else
        let successfulUploads :=
          List.insertionSort uploadOrder
            ((uploadAttempts ok mkUrl files 0).filterMap id)
        match successfulUploads with
        | [] => (.error (.badRequest "All files failed to upload"), List.range files.length)
        | first :: _ =>
          (.ok ⟨userId, successfulUploads.map (fun u => u.url), first.originalName,
            first.url, "active"⟩, List.range files.length)

theorem uploadAttempts_url (ok : Nat → Bool) (mkUrl : Nat → String) :
    ∀ (fs : List UploadItem) (i : Nat),
      ((uploadAttempts ok mkUrl fs i).filterMap id).map (fun u => u.url) =
        ((List.range' i fs.length).filter ok).map mkUrl := by
  intro fs
  induction fs with
  | nil =>
    intro i
    rfl
  | cons f rest ih =>
    intro i
    rw [uploadAttempts]
    simp only [List.length_cons]
    rw [List.range'_succ]
    rw [List.filter_cons]
    by_cases hok : ok i
    · rw [if_pos hok, if_pos hok]
      rw [List.filterMap_cons]
      simp only [id]
      rw [List.map_cons, List.map_cons, ih (i + 1)]
    · rw [if_neg hok, if_neg (by simp [hok])]
      rw [List.filterMap_cons]
      simp only [id]
      exact ih (i + 1)

theorem uploadAttempts_lb (ok : Nat → Bool) (mkUrl : Nat → String) :
    ∀ (fs : List UploadItem) (i : Nat),
      ∀ r ∈ (uploadAttempts ok mkUrl fs i).filterMap id, i ≤ r.index := by
  intro fs
  induction fs with
  | nil =>
    intro i r hr
    cases hr
  | cons f rest ih =>
    intro i r hr
    rw [uploadAttempts] at hr
    by_cases hok : ok i
    · rw [if_pos hok, List.filterMap_cons] at hr
      simp only [id] at hr
      rcases List.mem_cons.mp hr with rfl | hr
      · exact le_refl _
      · have := ih (i + 1) r hr
        omega
    · rw [if_neg hok, List.filterMap_cons] at hr
      simp only [id] at hr
      have := ih (i + 1) r hr
      omega

theorem uploadAttempts_sorted (ok : Nat → Bool) (mkUrl : Nat → String) :
    ∀ (fs : List UploadItem) (i : Nat),
      List.Sorted uploadOrder ((uploadAttempts ok mkUrl fs i).filterMap id) := by
  intro fs
  induction fs with
  | nil =>
    intro i
    exact List.sorted_nil
  | cons f rest ih =>
    intro i
    rw [uploadAttempts]
    by_cases hok : ok i
    · rw [if_pos hok, List.filterMap_cons]
      simp only [id]
      refine List.Pairwise.cons ?_ (ih (i + 1))
      intro r hr
      have := uploadAttempts_lb ok mkUrl rest (i + 1) r hr
      show i ≤ r.index
      omega
    · rw [if_neg hok, List.filterMap_cons]
      simp only [id]
      exact ih (i + 1)

theorem length_filter_add_not (p : Nat → Bool) :
    ∀ l : List Nat, (l.filter p).length + (l.filter (fun i => !(p i))).length = l.length := by
  intro l
  induction l with
  | nil => rfl
  | cons a l ih =>
    rw [List.filter_cons, List.filter_cons]
    by_cases h : p a
    · rw [if_pos h, if_neg (by simp [h])]
      simp only [List.length_cons]
      omega
    · rw [if_neg h, if_pos (by simp [h])]
      simp only [List.length_cons]
      omega

/-- C3: when the puts of a strict non-empty subset of the batch fail and at
least one succeeds, exactly one record draft is produced; its URL list is the
successful items in original request order (its length is `N` minus the
number of failures), and its thumbnail is the URL of the first surviving
item. -/
theorem c3_uploadFiles_partial_failure (userId : String) (files : List UploadItem)
    (ok : Nat → Bool) (mkUrl : Nat → String)
    (hmime : ∀ f ∈ files, allowedMimeTypes.contains f.mimetype = true)
    (hfail : ∃ i, i < files.length ∧ ok i = false)
    (hsucc : ∃ j, j < files.length ∧ ok j = true) :
    ∃ d j rest,
      uploadFiles userId true files ok mkUrl = (.ok d, List.range files.length) ∧
      (List.range files.length).filter ok = j :: rest ∧
      d.fileUrls = mkUrl j :: rest.map mkUrl ∧
      d.fileUrls.length + ((List.range files.length).filter (fun i => !(ok i))).length =
        files.length ∧
      d.thumbnailUrl = mkUrl j := by
  obtain ⟨jw, hjw, hjok⟩ := hsucc
  have hlen0 : ¬ files.length = 0 := by omega
  have hfind : files.find? (fun f => !(allowedMimeTypes.contains f.mimetype)) = none := by
    rw [List.find?_eq_none]
    intro f hf
    simp only [hmime f hf, Bool.not_true, Bool.false_eq_true, not_false_eq_true]
  have hsorted := uploadAttempts_sorted ok mkUrl files 0
  have hurl := uploadAttempts_url ok mkUrl files 0
  rw [← List.range_eq_range'] at hurl
  have hmemj : jw ∈ (List.range files.length).filter ok :=
    List.mem_filter.mpr ⟨List.mem_range.mpr hjw, hjok⟩
  cases hflt : (List.range files.length).filter ok with
  | nil =>
    rw [hflt] at hmemj
    cases hmemj
  | cons j rest =>
    rw [hflt] at hurl
    cases hS : (uploadAttempts ok mkUrl files 0).filterMap id with
    | nil =>
      rw [hS] at hurl
      cases hurl
    | cons first tail =>
      rw [hS] at hurl
      rw [List.map_cons, List.map_cons] at hurl
      have hfirst : first.url = mkUrl j := (List.cons_eq_cons.mp hurl).1
      have htail : tail.map (fun u => u.url) = rest.map mkUrl :=
        (List.cons_eq_cons.mp hurl).2
      have hsort_eq : List.insertionSort uploadOrder
          ((uploadAttempts ok mkUrl files 0).filterMap id) = first :: tail := by
        rw [List.Sorted.insertionSort_eq hsorted, hS]
      have hA : uploadFiles userId true files ok mkUrl =
          (.ok ⟨userId, first.url :: tail.map (fun u => u.url), first.originalName,
            first.url, "active"⟩, List.range files.length) := by
        unfold uploadFiles
        rw [if_neg hlen0, hfind]
        simp only [Bool.not_true, Bool.false_eq_true, if_false]
        rw [hsort_eq]
        rfl
      have hB : (first.url :: tail.map (fun u => u.url)) = mkUrl j :: rest.map mkUrl := by
        rw [hfirst, htail]
      have hC : (first.url :: tail.map (fun u => u.url)).length +
          ((List.range files.length).filter (fun i => !(ok i))).length = files.length := by
        simp only [List.length_cons, List.length_map]
        have hadd := length_filter_add_not ok (List.range files.length)
        rw [hflt] at hadd
        simp only [List.length_cons, List.length_range] at hadd
        have hlentail : tail.length = rest.length := by
          have := congrArg List.length htail
          simp only [List.length_map] at this
          exact this
        omega
      exact ⟨⟨userId, first.url :: tail.map (fun u => u.url), first.originalName,
        first.url, "active"⟩, j, rest, hA, rfl, hB, hC, hfirst⟩

theorem c3_witness :
    (∀ f ∈ [(⟨"a.png", "image/png"⟩ : UploadItem), ⟨"b.png", "image/png"⟩],
      allowedMimeTypes.contains f.mimetype = true) ∧
    (∃ i, i < ([(⟨"a.png", "image/png"⟩ : UploadItem), ⟨"b.png", "image/png"⟩]).length ∧
      (fun n => decide (n ≠ 0)) i = false) ∧
    (∃ j, j < ([(⟨"a.png", "image/png"⟩ : UploadItem), ⟨"b.png", "image/png"⟩]).length ∧
      (fun n => decide (n ≠ 0)) j = true) ∧
    (∃ d j rest,
      uploadFiles "u" true [⟨"a.png", "image/png"⟩, ⟨"b.png", "image/png"⟩]
          (fun n => decide (n ≠ 0)) (fun n => String.mk (natToDecimalAux n [])) =
        (.ok d, List.range ([(⟨"a.png", "image/png"⟩ : UploadItem),
          ⟨"b.png", "image/png"⟩]).length) ∧
      (List.range ([(⟨"a.png", "image/png"⟩ : UploadItem),
          ⟨"b.png", "image/png"⟩]).length).filter (fun n => decide (n ≠ 0)) = j :: rest ∧
      d.fileUrls = String.mk (natToDecimalAux j []) ::
        rest.map (fun n => String.mk (natToDecimalAux n [])) ∧
      d.fileUrls.length + ((List.range ([(⟨"a.png", "image/png"⟩ : UploadItem),
          ⟨"b.png", "image/png"⟩]).length).filter
            (fun i => !((fun n => decide (n ≠ 0)) i))).length =
        ([(⟨"a.png", "image/png"⟩ : UploadItem), ⟨"b.png", "image/png"⟩]).length ∧
      d.thumbnailUrl = String.mk (natToDecimalAux j [])) :=
  ⟨by decide, ⟨0, by decide⟩, ⟨1, by decide⟩,
    c3_uploadFiles_partial_failure "u" _ _ _ (by decide) ⟨0, by decide, by decide⟩
      ⟨1, by decide, by decide⟩⟩

/-- C9: a batch containing an item with a MIME type outside the allow-list is
rejected whole with a client error naming the first offending item, before
any object-store put is issued (the attempted-put log is empty) and with no
record draft created. -/
theorem c9_uploadFiles_mime_reject (userId : String) (userExists : Bool)
    (files : List UploadItem) (ok : Nat → Bool) (mkUrl : Nat → String)
    (hbad : ∃ f ∈ files, allowedMimeTypes.contains f.mimetype = false) :
    ∃ f, files.find? (fun f => !(allowedMimeTypes.contains f.mimetype)) = some f ∧
      uploadFiles userId userExists files ok mkUrl =
        (.error (.badRequest ("Invalid file type: " ++ f.originalname ++
          ". Only image files are allowed (JPEG, PNG, GIF, WebP, BMP, SVG).")), []) := by
  obtain ⟨g, hg, hgbad⟩ := hbad
  have hlen0 : ¬ files.length = 0 := by
    intro hl
    rw [List.length_eq_zero] at hl
    rw [hl] at hg
    cases hg
  have hfindS : (files.find? (fun f => !(allowedMimeTypes.contains f.mimetype))).isSome := by
    rw [List.find?_isSome]
    exact ⟨g, hg, by simp only [hgbad, Bool.not_false]⟩
  obtain ⟨f, hf⟩ := Option.isSome_iff_exists.mp hfindS
  refine ⟨f, hf, ?_⟩
  unfold uploadFiles
  rw [if_neg hlen0, hf]

theorem c9_witness :
    (∃ f ∈ [(⟨"a.pdf", "application/pdf"⟩ : UploadItem), ⟨"b.png", "image/png"⟩],
      allowedMimeTypes.contains f.mimetype = false) ∧
    (∃ f, ([(⟨"a.pdf", "application/pdf"⟩ : UploadItem), ⟨"b.png", "image/png"⟩]).find?
        (fun f => !(allowedMimeTypes.contains f.mimetype)) = some f ∧
      uploadFiles "u" true [⟨"a.pdf", "application/pdf"⟩, ⟨"b.png", "image/png"⟩]
          (fun _ => true) (fun _ => "k") =
        (.error (.badRequest ("Invalid file type: " ++ f.originalname ++
          ". Only image files are allowed (JPEG, PNG, GIF, WebP, BMP, SVG).")), [])) :=
  ⟨⟨⟨"a.pdf", "application/pdf"⟩, by decide, by decide⟩,
    c9_uploadFiles_mime_reject "u" true _ (fun _ => true) (fun _ => "k")
      ⟨⟨"a.pdf", "application/pdf"⟩, by decide, by decide⟩⟩

/-! ## `FilesService.deleteFiles` (`src/unnamed/part_004`, lines 255-316) -/

/-- Outcome of one `deleteFiles` call: the thrown error if any, the table
contents afterwards, and the object-store keys for which a
`DeleteObjectCommand` was issued (individual S3 failures are swallowed by
the inner catch, so issuing is all that is observable). -/
structure DeleteOutcome where
  error : Option ServiceError
  db : List File
  deletedKeys : List String
deriving DecidableEq, Repr

/-- Key extraction of lines 287-289: `url.split('/')` and take the last
component (the suffix after the last slash, the whole string when there is
no slash). -/
def urlKey (url : String) : String :=
  String.mk ((url.data.reverse.takeWhile (fun c => c ≠ '/')).reverse)

/-- `FilesService.deleteFiles`. The `files` lookup models the
`In(fileIds) AND user_id = userId` query; empty keys are skipped by the
`if (fileKey)` truthiness check. -/
def deleteFiles (db : List File) (fileIds : List String) (userId : String) : DeleteOutcome :=
  if fileIds.length = 0 then
    ⟨some (.badRequest "No file IDs provided"), db, []⟩
  else
    let files := db.filter (fun f => fileIds.contains f.id && f.userId == userId)
    if files.length = 0 then
      ⟨some (.notFound "No files found to delete"), db, []⟩
    else
      let foundIds := files.map (fun f => f.id)
      let notFoundIds := fileIds.filter (fun i => !(foundIds.contains i))
      if notFoundIds.length > 0 then
        ⟨some (.notFound ("Files not found: " ++ String.intercalate ", " notFoundIds)), db, []⟩
      else
        let keys := (files.map (fun f => (f.fileUrls.map urlKey).filter (fun k => k ≠ ""))).flatten
        ⟨none, db.filter (fun f => !(fileIds.contains f.id && f.userId == userId)), keys⟩

/-- C4 counterexample: when NO requested id resolves (here: a delete of id
`a1` against an empty table, e.g. an already-deleted record), the call does
throw NotFound and deletes nothing, but its message is the generic
"No files found to delete" and does not enumerate the unresolved ids. -/
theorem c4_counterexample :
    deleteFiles [] ["a1"] "u" =
      ⟨some (.notFound "No files found to delete"), [], []⟩ ∧
    "No files found to delete" ≠ "Files not found: " ++ String.intercalate ", " ["a1"] := by
  decide

/-- C4 (amended): if at least one requested id does not resolve to a record
owned by the caller (including an already-deleted id), nothing is deleted:
the table is unchanged and no object-store deletion is issued, and the call
throws NotFound — enumerating the unresolved ids when at least one id did
resolve, and with the generic message "No files found to delete" when none
resolved. -/
theorem c4_deleteFiles_validation_gate (db : List File) (fileIds : List String)
    (userId : String) (i : String) (hi : i ∈ fileIds)
    (hbad : ∀ f ∈ db, f.id = i → f.userId ≠ userId) :
    (deleteFiles db fileIds userId).db = db ∧
    (deleteFiles db fileIds userId).deletedKeys = [] ∧
    (deleteFiles db fileIds userId).error =
      some (.notFound
        (if (db.filter (fun f => fileIds.contains f.id && f.userId == userId)).length = 0 then
          "No files found to delete"
        else
          "Files not found: " ++ String.intercalate ", "
            (fileIds.filter (fun x =>
              !(((db.filter (fun f => fileIds.contains f.id && f.userId == userId)).map
                (fun f => f.id)).contains x))))) := by
  have hlen0 : ¬ fileIds.length = 0 := by
    intro hl
    rw [List.length_eq_zero] at hl
    rw [hl] at hi
    cases hi
  unfold deleteFiles
  rw [if_neg hlen0]
  simp only
  by_cases hf0 : (db.filter (fun f => fileIds.contains f.id && f.userId == userId)).length = 0
  · rw [if_pos hf0, if_pos hf0]
    exact ⟨rfl, rfl, rfl⟩
  · rw [if_neg hf0, if_neg hf0]
    have hmem : i ∈ fileIds.filter (fun x =>
        !(((db.filter (fun f => fileIds.contains f.id && f.userId == userId)).map
          (fun f => f.id)).contains x)) := by
      rw [List.mem_filter]
      refine ⟨hi, ?_⟩
      rw [Bool.not_eq_true']
      rw [List.contains_eq_any_beq]
      rw [Bool.eq_false_iff]
      intro hany
      rw [List.any_eq_true] at hany
      obtain ⟨x, hx, hxi⟩ := hany
      rw [beq_iff_eq] at hxi
      rcases List.mem_map.mp hx with ⟨f, hfmem, rfl⟩
      have hff := List.mem_filter.mp hfmem
      have hown : f.userId = userId := by
        have := hff.2
        simp only [Bool.and_eq_true, beq_iff_eq] at this
        exact this.2
      exact hbad f hff.1 hxi.symm hown
    have hnf : (fileIds.filter (fun x =>
        !(((db.filter (fun f => fileIds.contains f.id && f.userId == userId)).map
          (fun f => f.id)).contains x))).length > 0 := by
      cases hc : fileIds.filter (fun x =>
          !(((db.filter (fun f => fileIds.contains f.id && f.userId == userId)).map
            (fun f => f.id)).contains x)) with
      | nil =>
        rw [hc] at hmem
        cases hmem
      | cons a l =>
        simp
    rw [if_pos hnf]
    exact ⟨rfl, rfl, rfl⟩

theorem c4_witness :
    "c" ∈ ["a", "c"] ∧
    (∀ f ∈ [(⟨"a", "u", ["r/a.png"], "r/a.png", "a.png", "", "active", 1, 1⟩ : File)],
      f.id = "c" → f.userId ≠ "u") ∧
    ((deleteFiles [⟨"a", "u", ["r/a.png"], "r/a.png", "a.png", "", "active", 1, 1⟩]
        ["a", "c"] "u").db =
      [⟨"a", "u", ["r/a.png"], "r/a.png", "a.png", "", "active", 1, 1⟩] ∧
    (deleteFiles [⟨"a", "u", ["r/a.png"], "r/a.png", "a.png", "", "active", 1, 1⟩]
        ["a", "c"] "u").deletedKeys = [] ∧
    (deleteFiles [⟨"a", "u", ["r/a.png"], "r/a.png", "a.png", "", "active", 1, 1⟩]
        ["a", "c"] "u").error =
      some (.notFound
        (if (([⟨"a", "u", ["r/a.png"], "r/a.png", "a.png", "", "active", 1, 1⟩] :
            List File).filter
              (fun f => (["a", "c"] : List String).contains f.id && f.userId == "u")).length
            = 0 then
          "No files found to delete"
        else
          "Files not found: " ++ String.intercalate ", "
            ((["a", "c"] : List String).filter (fun x =>
              !(((([⟨"a", "u", ["r/a.png"], "r/a.png", "a.png", "", "active", 1, 1⟩] :
                List File).filter
                  (fun f => (["a", "c"] : List String).contains f.id && f.userId == "u")).map
                    (fun f => f.id)).contains x)))))) :=
  ⟨by decide, by decide,
    c4_deleteFiles_validation_gate _ ["a", "c"] "u" "c" (by decide) (by decide)⟩

/-! ## Entity hooks (`file.entity.ts`, lines 81-93) and
`FilesService.updateFile` (lines 237-249) -/

/-- `@BeforeInsert createDates`: `createdAt = updatedAt = Date.now()`, and a
missing status defaults to `active` (the empty string models null). -/
def createDates (now : Nat) (f : File) : File :=
  { f with createdAt := now, updatedAt := now,
           status := if f.status = "" then "active" else f.status }

/-- `@BeforeUpdate updateDates`: `updatedAt = Date.now()`. -/
def updateDates (now : Nat) (f : File) : File :=
  { f with updatedAt := now }

/-- A sequence of mutating writes, each stamped by the hook with its own
`Date.now()` reading. -/
def applyUpdates (f : File) (ts : List Nat) : File :=
  ts.foldl (fun g t => updateDates t g) f

/-- C7 counterexample: an update performed in the same millisecond as the
previous write (`Date.now()` returns 5 both times) is a mutating write after
which `updatedAt` has NOT strictly increased. -/
theorem c7_counterexample :
    ¬ ((updateDates 5 (createDates 5 ⟨"a", "u", ["k"], "k", "n", "", "", 0, 0⟩)).updatedAt >
      (createDates 5 ⟨"a", "u", ["k"], "k", "n", "", "", 0, 0⟩).updatedAt) := by decide

theorem applyUpdates_inv : ∀ (ts : List Nat) (g : File), (∀ t ∈ ts, g.createdAt ≤ t) →
    g.createdAt ≤ g.updatedAt →
    (applyUpdates g ts).createdAt = g.createdAt ∧
    (applyUpdates g ts).createdAt ≤ (applyUpdates g ts).updatedAt := by
  intro ts
  induction ts with
  | nil =>
    intro g _ h2
    exact ⟨rfl, h2⟩
  | cons t ts ih =>
    intro g h1 h2
    have hstep := ih (updateDates t g)
      (fun x hx => h1 x (by simp [hx]))
      (h1 t (by simp))
    exact hstep

/-- C7 (amended): the first write sets `updatedAt = createdAt`; along any
sequence of updates whose `Date.now()` readings are at least the creation
time, `createdAt` is preserved and `updatedAt >= createdAt` holds; and an
update strictly increases `updatedAt` exactly when the clock strictly
advanced past the record's current `updatedAt` — two writes within one
millisecond leave `updatedAt` unchanged, so the strict increase claimed for
every mutating write does not hold unconditionally. -/
theorem c7_timestamps (f0 : File) (c : Nat) (ts : List Nat) (h : ∀ t ∈ ts, c ≤ t) :
    (createDates c f0).updatedAt = (createDates c f0).createdAt ∧
    (applyUpdates (createDates c f0) ts).createdAt = c ∧
    (applyUpdates (createDates c f0) ts).createdAt ≤
      (applyUpdates (createDates c f0) ts).updatedAt ∧
    (∀ (g : File) (t : Nat), (updateDates t g).updatedAt > g.updatedAt ↔ g.updatedAt < t) := by
  have hinv := applyUpdates_inv ts (createDates c f0) h (le_refl c)
  exact ⟨rfl, hinv.1, hinv.2, fun g t => Iff.rfl⟩

theorem c7_witness :
    (∀ t ∈ [6, 6, 9], 5 ≤ t) ∧
    ((createDates 5 ⟨"a", "u", ["k"], "k", "n", "", "", 0, 0⟩).updatedAt =
      (createDates 5 ⟨"a", "u", ["k"], "k", "n", "", "", 0, 0⟩).createdAt ∧
    (applyUpdates (createDates 5 ⟨"a", "u", ["k"], "k", "n", "", "", 0, 0⟩)
      [6, 6, 9]).createdAt = 5 ∧
    (applyUpdates (createDates 5 ⟨"a", "u", ["k"], "k", "n", "", "", 0, 0⟩)
        [6, 6, 9]).createdAt ≤
      (applyUpdates (createDates 5 ⟨"a", "u", ["k"], "k", "n", "", "", 0, 0⟩)
        [6, 6, 9]).updatedAt ∧
    (∀ (g : File) (t : Nat), (updateDates t g).updatedAt > g.updatedAt ↔ g.updatedAt < t)) :=
  ⟨by decide, c7_timestamps ⟨"a", "u", ["k"], "k", "n", "", "", 0, 0⟩ 5 [6, 6, 9] (by decide)⟩

/-- `getFileById`'s lookup: `findOne({ where: { id, user: { id: userId } } })`. -/
def findOwnedFile (db : List File) (fileId userId : String) : Option File :=
  db.find? (fun f => f.id == fileId && f.userId == userId)

/-- Outcome of `updateFile`: the thrown error if any and the table afterwards. -/
structure UpdateOutcome where
  error : Option ServiceError
  db : List File
deriving DecidableEq, Repr

/-- `FilesService.updateFile`: fetch the owned record, overwrite `status`
only when the DTO defines it, and save unconditionally — `@BeforeUpdate`
stamps `updatedAt` with the current clock reading `now`. -/
def updateFile (db : List File) (fileId userId : String) (dtoStatus : Option String)
    (now : Nat) : UpdateOutcome :=
  match findOwnedFile db fileId userId with
  | none => ⟨some (.notFound "File not found"), db⟩
  | some f =>
    let f' := updateDates now
      (match dtoStatus with
       | some s => { f with status := s }
       | none => f)
    ⟨none, db.map (fun g => if g.id == f.id then f' else g)⟩

/-- C10 counterexample: an `updateFile` call whose `Date.now()` reading
equals the record's current `updatedAt` (a same-millisecond write, the
scenario of the C7 counterexample) persists the record but does NOT advance
`updatedAt`: the saved row equals the old row, so its position in the
pagination order is unchanged — refuting "updatedAt is advanced" for every
call. -/
theorem c10_counterexample :
    (updateFile [⟨"a", "u", ["k"], "k", "n", "", "active", 1, 3⟩] "a" "u" none 3).error
      = none ∧
    (updateFile [⟨"a", "u", ["k"], "k", "n", "", "active", 1, 3⟩] "a" "u" none 3).db =
      [⟨"a", "u", ["k"], "k", "n", "", "active", 1, 3⟩] := by decide

/-- C10 (amended): on an owned record, `updateFile` always saves — even with
an empty DTO — and the stored record's `updatedAt` is set to the current
clock reading: it advances exactly when the clock has moved past the stored
value (a same-millisecond write leaves it unchanged). `id`, `owner`,
`fileUrls`, `thumbnailUrl`, `fileName` and `createdAt` are unchanged;
`status` changes only when the DTO defines it. All other records are
untouched and the table size is preserved. -/
theorem c10_updateFile_frame (db : List File) (fileId userId : String)
    (dtoStatus : Option String) (now : Nat) (f : File)
    (hf : findOwnedFile db fileId userId = some f) :
    (updateFile db fileId userId dtoStatus now).error = none ∧
    (∃ f', f' ∈ (updateFile db fileId userId dtoStatus now).db ∧
      f'.id = f.id ∧ f'.userId = f.userId ∧ f'.fileUrls = f.fileUrls ∧
      f'.thumbnailUrl = f.thumbnailUrl ∧ f'.fileName = f.fileName ∧
      f'.createdAt = f.createdAt ∧ f'.updatedAt = now ∧
      (f.updatedAt < now → f.updatedAt < f'.updatedAt) ∧
      f'.status = (match dtoStatus with | some s => s | none => f.status)) ∧
    (∀ g ∈ db, g.id ≠ f.id → g ∈ (updateFile db fileId userId dtoStatus now).db) ∧
    (updateFile db fileId userId dtoStatus now).db.length = db.length := by
  have hfmem : f ∈ db := List.mem_of_find?_eq_some hf
  unfold updateFile
  rw [hf]
  refine ⟨rfl, ?_, ?_, List.length_map _ _⟩
  · refine ⟨updateDates now
        (match dtoStatus with
         | some s => { f with status := s }
         | none => f), ?_, ?_⟩
    · exact List.mem_map.mpr ⟨f, hfmem, by rw [if_pos (beq_self_eq_true f.id)]⟩
    · cases dtoStatus with
      | none => exact ⟨rfl, rfl, rfl, rfl, rfl, rfl, rfl, fun h => h, rfl⟩
      | some s => exact ⟨rfl, rfl, rfl, rfl, rfl, rfl, rfl, fun h => h, rfl⟩
  · intro g hg hne
    refine List.mem_map.mpr ⟨g, hg, ?_⟩
    rw [if_neg]
    intro hbe
    exact hne (eq_of_beq hbe)

theorem c10_witness :
    findOwnedFile [(⟨"a", "u", ["k"], "k", "n", "", "active", 1, 3⟩ : File)] "a" "u" =
      some ⟨"a", "u", ["k"], "k", "n", "", "active", 1, 3⟩ ∧
    ((updateFile [(⟨"a", "u", ["k"], "k", "n", "", "active", 1, 3⟩ : File)]
        "a" "u" none 9).error = none ∧
    (∃ f', f' ∈ (updateFile [(⟨"a", "u", ["k"], "k", "n", "", "active", 1, 3⟩ : File)]
        "a" "u" none 9).db ∧
      f'.id = (⟨"a", "u", ["k"], "k", "n", "", "active", 1, 3⟩ : File).id ∧
      f'.userId = (⟨"a", "u", ["k"], "k", "n", "", "active", 1, 3⟩ : File).userId ∧
      f'.fileUrls = (⟨"a", "u", ["k"], "k", "n", "", "active", 1, 3⟩ : File).fileUrls ∧
      f'.thumbnailUrl = (⟨"a", "u", ["k"], "k", "n", "", "active", 1, 3⟩ : File).thumbnailUrl ∧
      f'.fileName = (⟨"a", "u", ["k"], "k", "n", "", "active", 1, 3⟩ : File).fileName ∧
      f'.createdAt = (⟨"a", "u", ["k"], "k", "n", "", "active", 1, 3⟩ : File).createdAt ∧
      f'.updatedAt = 9 ∧
      ((⟨"a", "u", ["k"], "k", "n", "", "active", 1, 3⟩ : File).updatedAt < 9 →
        (⟨"a", "u", ["k"], "k", "n", "", "active", 1, 3⟩ : File).updatedAt < f'.updatedAt) ∧
      f'.status = (match (none : Option String) with
        | some s => s
        | none => (⟨"a", "u", ["k"], "k", "n", "", "active", 1, 3⟩ : File).status)) ∧
    (∀ g ∈ [(⟨"a", "u", ["k"], "k", "n", "", "active", 1, 3⟩ : File)],
      g.id ≠ (⟨"a", "u", ["k"], "k", "n", "", "active", 1, 3⟩ : File).id →
        g ∈ (updateFile [(⟨"a", "u", ["k"], "k", "n", "", "active", 1, 3⟩ : File)]
          "a" "u" none 9).db) ∧
    (updateFile [(⟨"a", "u", ["k"], "k", "n", "", "active", 1, 3⟩ : File)]
        "a" "u" none 9).db.length =
      ([(⟨"a", "u", ["k"], "k", "n", "", "active", 1, 3⟩ : File)]).length) :=
  ⟨by decide,
    c10_updateFile_frame _ "a" "u" none 9 ⟨"a", "u", ["k"], "k", "n", "", "active", 1, 3⟩
      (by decide)⟩

/-! ## `FilesService.convertToPdf` (`src/unnamed/part_004`, lines 324-399)
and `MediaService.scanImageWithPython` (`media.service.ts`, lines 336-396) -/

instance exceptDecEq {e a : Type} [DecidableEq e] [DecidableEq a] :
    DecidableEq (Except e a) := fun x y =>
  match x, y with
  | .error v, .error w =>
    if h : v = w then isTrue (by rw [h]) else isFalse (fun hc => h (Except.error.inj hc))
  | .ok v, .ok w =>
    if h : v = w then isTrue (by rw [h]) else isFalse (fun hc => h (Except.ok.inj hc))
  | .error _, .ok _ => isFalse (fun hc => Except.noConfusion hc)
  | .ok _, .error _ => isFalse (fun hc => Except.noConfusion hc)

/-- Environment oracle for one `convertToPdf` run: the outcome of the
`execAsync` call (`.error` models a nonzero exit or the 120 s timeout kill),
the content of `merged.pdf` after that call (`none` when the file was not
created, `some []` for a zero-byte file), the S3 put outcome, and whether
the `fs.rmSync` of the temp directory throws. -/
structure PdfEnv where
  execResult : Except String Unit
  pdfContent : Option (List Nat)
  putError : Option String
  rmFails : Bool
deriving DecidableEq, Repr

/-- Observable outcome of one `convertToPdf` run. `tempsRemaining` is true
when the temp directory (and its files) still exists after the call. -/
structure PdfOutcome where
  result : Except ServiceError String
  tempDirCreated : Bool
  cleanupRan : Bool
  tempsRemaining : Bool
deriving DecidableEq, Repr

/-- `FilesService.convertToPdf`: ownership lookup, URL check, temp dir,
merge stage, `existsSync` validation (lines 361-363 — existence only, the
byte count is never read before `readFileSync`), upload, and the
`finally`-block cleanup whose own failure is swallowed (lines 391-398). -/
def convertToPdfFound (env : PdfEnv) (pdfUrl : String) : Option File → PdfOutcome
  | none => ⟨.error (.notFound "File not found"), false, false, false⟩
  | some f =>
    if f.fileUrls.length = 0 then
      ⟨.error (.badRequest "No image URLs found in file"), false, false, false⟩
    else
      let inner : Except ServiceError String :=
        match env.execResult with
        | .error msg => .error (.badRequest ("Failed to convert to PDF: " ++ msg))
        | .ok _ =>
          match env.pdfContent with
          | none => .error (.badRequest "Failed to create PDF")
          | some _ =>
            match env.putError with
            | some msg => .error (.badRequest ("Failed to convert to PDF: " ++ msg))
            | none => .ok pdfUrl
      ⟨inner, true, true, env.rmFails⟩

def convertToPdf (db : List File) (fileId userId : String) (env : PdfEnv)
    (pdfUrl : String) : PdfOutcome :=
  convertToPdfFound env pdfUrl (db.find? (fun f => f.id == fileId && f.userId == userId))

/-- C5 counterexample: the merge stage returns success but leaves `merged.pdf`
EMPTY (zero bytes, `some []`). `existsSync` passes, so `convertToPdf`
proceeds, uploads the empty buffer and reports success — not a stage
failure, contradicting the claim for the "empty" case. -/
theorem c5_counterexample :
    (convertToPdf [⟨"f1", "u", ["r/a.png"], "r/a.png", "a.png", "", "active", 1, 1⟩]
      "f1" "u" ⟨.ok (), some [], none, false⟩ "r/out.pdf").result = .ok "r/out.pdf" := by
  decide

/-- C5 (amended): a MISSING declared output (`merged.pdf` not created) is
reported as a stage failure even though the stage process returned success;
an empty (zero-byte) output is not detected — only `existsSync` is checked —
and the call proceeds as a success. -/
theorem c5_missing_output_is_failure (db : List File) (fileId userId : String) (f : File)
    (putError : Option String) (rmFails : Bool) (pdfUrl : String)
    (hf : db.find? (fun f => f.id == fileId && f.userId == userId) = some f)
    (hurls : f.fileUrls.length ≠ 0) :
    (convertToPdf db fileId userId ⟨.ok (), none, putError, rmFails⟩ pdfUrl).result =
      .error (.badRequest "Failed to create PDF") := by
  unfold convertToPdf
  rw [hf]
  simp only [convertToPdfFound]
  rw [if_neg hurls]

theorem c5_witness :
    ([(⟨"f1", "u", ["r/a.png"], "r/a.png", "a.png", "", "active", 1, 1⟩ : File)]).find?
      (fun f => f.id == "f1" && f.userId == "u") =
        some ⟨"f1", "u", ["r/a.png"], "r/a.png", "a.png", "", "active", 1, 1⟩ ∧
    (⟨"f1", "u", ["r/a.png"], "r/a.png", "a.png", "", "active", 1, 1⟩ : File).fileUrls.length
      ≠ 0 ∧
    (convertToPdf [⟨"f1", "u", ["r/a.png"], "r/a.png", "a.png", "", "active", 1, 1⟩]
      "f1" "u" ⟨.ok (), none, none, false⟩ "r/out.pdf").result =
        .error (.badRequest "Failed to create PDF") :=
  ⟨by decide, by decide,
    c5_missing_output_is_failure _ "f1" "u"
      ⟨"f1", "u", ["r/a.png"], "r/a.png", "a.png", "", "active", 1, 1⟩ none false "r/out.pdf"
      (by decide) (by decide)⟩

/-- Environment for one `MediaService.scanImageWithPython` run: outcome of the
Python subprocess, content of the declared output path afterwards, and
whether `fs.unlinkSync` throws on each of the two temp files. -/
structure ScanEnv where
  execResult : Except String Unit
  outputContent : Option (List Nat)
  unlinkInputFails : Bool
  unlinkOutputFails : Bool
deriving DecidableEq, Repr

/-- Errors surfacing from `scanImageWithPython`: the wrapped
`BadRequestException` of the catch block, or a raw filesystem error that
escapes the catch block itself. -/
inductive ScanError where
  | badRequest (msg : String)
  | fsError
deriving DecidableEq, Repr

/-- Observable outcome of one `scanImageWithPython` run: the settled value
and whether each temp file is still on disk afterwards. -/
structure ScanOutcome where
  result : Except ScanError (List Nat)
  inputRemains : Bool
  outputRemains : Bool
deriving DecidableEq, Repr

/-- The catch-block cleanup (lines 382-395): unlink the input temp if it
exists, then the output temp if it exists, then rethrow as BadRequest. An
`unlinkSync` that throws aborts the rest of the cleanup and escapes the
catch block as a raw error. -/
def scanCatchCleanup (env : ScanEnv) (inExists outExists : Bool) (msg : String) :
    ScanOutcome :=
  if inExists && env.unlinkInputFails then ⟨.error .fsError, true, outExists⟩
  else if outExists && env.unlinkOutputFails then ⟨.error .fsError, false, true⟩
  else ⟨.error (.badRequest ("Failed to scan image: " ++ msg)), false, false⟩

/-- `MediaService.scanImageWithPython` after the input temp file has been
written: run the script, require the output to exist (lines 364-369), read
it, then the success-path cleanup (lines 373-379) — whose `unlinkSync`
failures are NOT swallowed: they fall into the catch block, whose own
cleanup unlinks fail again and propagate. -/
def scanImageWithPython (env : ScanEnv) : ScanOutcome :=
  match env.execResult with
  | .error msg => scanCatchCleanup env true env.outputContent.isSome msg
  | .ok _ =>
    match env.outputContent with
    | none => scanCatchCleanup env true false "Scanned image file was not created"
    | some buf =>
      if env.unlinkInputFails then
        scanCatchCleanup env true true "unlink failed"
      else if env.unlinkOutputFails then
        scanCatchCleanup env false true "unlink failed"
      else
        ⟨.ok buf, false, false⟩

/-- C6 counterexample: in `scanImageWithPython` the scan stage succeeds and
produces output, but deleting the input temp file fails; the unlink error is
not swallowed — the call fails with a raw filesystem error and the temp
files remain on disk, contradicting both halves of the claim on this exit
path. -/
theorem c6_counterexample :
    (scanImageWithPython ⟨.ok (), some [1], true, false⟩).result = .error .fsError ∧
    (scanImageWithPython ⟨.ok (), some [1], true, false⟩).inputRemains = true ∧
    (scanImageWithPython ⟨.ok (), some [1], true, false⟩).outputRemains = true := by
  decide

/-- C6 (amended): `convertToPdf` (and its sibling `convertToScan`) satisfy
the cleanup discipline: on every exit path that created the temp directory
the `finally` cleanup runs, its own failure is swallowed — the settled
result is independent of whether `rmSync` throws — and when `rmSync`
succeeds no temp file remains. `scanImageWithPython`, by contrast, lets a
failing `unlinkSync` propagate and leak the temp files (see the
counterexample). -/
theorem c6_convertToPdf_cleanup (db : List File) (fileId userId : String)
    (execResult : Except String Unit) (pdfContent : Option (List Nat))
    (putError : Option String) (pdfUrl : String) :
    (convertToPdf db fileId userId ⟨execResult, pdfContent, putError, true⟩ pdfUrl).result =
      (convertToPdf db fileId userId ⟨execResult, pdfContent, putError, false⟩ pdfUrl).result ∧
    (convertToPdf db fileId userId
      ⟨execResult, pdfContent, putError, false⟩ pdfUrl).tempsRemaining = false ∧
    ((convertToPdf db fileId userId
        ⟨execResult, pdfContent, putError, true⟩ pdfUrl).tempDirCreated = true →
      (convertToPdf db fileId userId
        ⟨execResult, pdfContent, putError, true⟩ pdfUrl).cleanupRan = true) := by
  unfold convertToPdf
  cases db.find? (fun f => f.id == fileId && f.userId == userId) with
  | none =>
    refine ⟨rfl, rfl, ?_⟩
    intro h
    simp [convertToPdfFound] at h
  | some f =>
    simp only [convertToPdfFound]
    by_cases hu : f.fileUrls.length = 0
    · simp [hu]
    · simp [hu]
